import Mathlib

/-!
Verification of the command-dispatch and live-refresh engine of
transmission-telegram (main.go, v1.4) against its design document.

Go strings are byte sequences; outbound text is modelled as a list of
bytes (`GoStr`).  Rendered blocks are modelled as lists of characters.
External collaborators (the transmission RPC client, the telegram bot
API, the humanize formatting library) are modelled as function
parameters or oracles, never as concrete code.
-/

/-- Go string as a byte sequence (`text[i]` indexes bytes). -/
abbrev GoStr := List Nat

/-- Model of `utf8.RuneCountInString`: the number of bytes that are not
UTF-8 continuation bytes, which equals the rune count on valid UTF-8
input (the library function is external to the repository). -/
def runeCount (s : GoStr) : Nat :=
  (s.filter (fun b => decide (b < 128) || decide (192 ≤ b))).length

/-- Model of the backward scan `for text[stop] != 10 { stop-- }` in `send`,
started at index `i`.  `none` models the slip where no newline exists at
or before `i`: the Go loop decrements `stop` past zero and the byte
access crashes the process. -/
def findNL (t : GoStr) : Nat → Option Nat
  | 0 => if t[0]? = some 10 then some 0 else none
  | i + 1 =>
    match t[i + 1]? with
    | some 10 => some (i + 1)
    | _ => findNL t i

/-- Model of the `LenCheck` loop of `send` (main.go): while the rune count
exceeds 4096, find the last newline at or before byte index 4095, emit
`text[:stop]` as a chunk and continue with `text[stop:]`.  The fuel
argument dominates the number of iterations the Go loop can make before
repeating a state; `none` models a crash of the byte access or a loop
that never terminates. -/
def sendLoop : Nat → GoStr → Option (List GoStr)
  | 0, _ => none
  | fuel + 1, t =>
    if 4096 < runeCount t then
      (findNL t 4095).bind fun stop =>
        (sendLoop fuel (t.drop stop)).map fun cs => t.take stop :: cs
    else
      some [t]

/-- Chunking performed by `send` on an outbound text.  Fuel `t.length + 1`
suffices: every productive iteration strictly shortens the text. -/
def sendChunks (t : GoStr) : Option (List GoStr) :=
  sendLoop (t.length + 1) t

/-- Model of the message identifier returned by `send`.  `ids k` is the
identifier the chat platform assigns to the `k`-th `Bot.Send` call of
this invocation.  Inside the chunk loop the response of `Bot.Send` is
discarded (`if _, err := Bot.Send(msg)`); only the response of the final
send, after the loop, is kept and its `MessageID` returned. -/
def sendLoopID (ids : Nat → Int) : Nat → Nat → GoStr → Option Int
  | _, 0, _ => none
  | k, fuel + 1, t =>
    if 4096 < runeCount t then
      (findNL t 4095).bind fun stop => sendLoopID ids (k + 1) fuel (t.drop stop)
    else
      some (ids k)

/-- Identifier returned by `send text chatID markdown` under the platform
identifier assignment `ids`. -/
def sendMsgID (t : GoStr) (ids : Nat → Int) : Option Int :=
  sendLoopID ids 0 (t.length + 1) t

/-- Oversize text with no newline anywhere: 4097 copies of the byte 97. -/
def noNewlineText : GoStr := List.replicate 4097 97

/-- Text that splits into exactly two chunks: 4095 copies of byte 97, a
newline, then two more bytes. -/
def twoChunkText : GoStr := List.replicate 4095 97 ++ 10 :: [97, 97]

/-- Rendered text as a character sequence. -/
abbrev Str := List Char

/-- Characters of a Lean string literal. -/
def lit (s : String) : Str := s.data

/-- Decimal rendering of a number, as produced by the %d verb. -/
def natStr (n : Nat) : Str := (toString n).data

/-- Decimal rendering of a signed number, as produced by the %d verb. -/
def intStr (n : Int) : Str := (toString n).data

/-- Model of `strings.ToLower` (external standard library), restricted to
its ASCII action, which covers every identity of interest. -/
def goToLower (s : Str) : Str := s.map Char.toLower

/-- Model of `strings.Replace(s, "@", "", -1)` run on each master at
startup: every at-sign is removed. -/
def removeAts (s : Str) : Str := s.filter (fun c => decide (c ≠ '@'))

/-- Masters as they exist after startup: `masterSlice.Set` lower-cases
each `-master` flag value as it is appended, then the flag init loop
replaces every "@" with the empty string. -/
def loadMasters (entries : List Str) : List Str :=
  entries.map (fun e => removeAts (goToLower e))

/-- Model of `masterSlice.Contains`: lower-case the candidate, then scan
for an exactly equal entry.  The candidate is NOT stripped of at-signs. -/
def masterContains (masters : List Str) (m : Str) : Bool :=
  masters.any (fun x => x == goToLower m)

/-- Status constants of the external transmission package. -/
def StatusDownloading : Nat := 4

/-- Queued-to-download status constant of the external package. -/
def StatusDownloadPending : Nat := 3

/-- Snapshot fields of one torrent as read by the handlers.  `haveBytes`
models the result of the external `Have()` method. -/
structure Torrent where
  id : Nat
  name : Str
  status : Nat
  haveBytes : Nat
  sizeWhenDone : Nat
  rateDownload : Nat
  rateUpload : Nat
  downloadedEver : Nat
  uploadedEver : Nat
  errorCode : Int
  errorString : Str
  addedDate : Nat
deriving DecidableEq

/-- External formatting collaborators used inside the render templates:
`bytes` is `humanize.Bytes`, `status` is the `TorrentStatus()` method,
`percent` the `%.1f` rendering of `PercentDone*100`, `ratio` the
`Ratio()` method, `eta` the `ETA()` method, `added` the formatted
`AddedDate`, and `trackersOf` the announce-host extraction that the
`info` handler performs with `trackerRegex` over the external tracker
list. -/
structure Fmt where
  bytes : Nat → Str
  status : Torrent → Str
  percent : Torrent → Str
  ratio : Torrent → Str
  eta : Torrent → Str
  added : Torrent → Str
  trackersOf : Torrent → Str

/-- Character substitution used before a name is placed inside markdown:
`strings.NewReplacer("*", "•", "[", "(", "]", ")", "_", "-", "`", "'")`;
every pattern is a single character, so the replacer acts per character. -/
def mdChar (c : Char) : Char :=
  if c = '*' then '•'
  else if c = '[' then '('
  else if c = ']' then ')'
  else if c = '_' then '-'
  else if c = Char.ofNat 96 then Char.ofNat 39
  else c

/-- Model of `mdReplacer.Replace`. -/
def mdReplace (s : Str) : Str := s.map mdChar

/-- Per-item line of the plain listings (`list`, `downs`, `seeding`,
`search`, `latest`): `fmt.Sprintf("<%d> %s\n", ID, Name)` — the name is
emitted unchanged. -/
def listLine (t : Torrent) : Str :=
  lit "<" ++ natStr t.id ++ lit "> " ++ t.name ++ lit "\n"

/-- Per-item line of the rich listings; `head`, `tail` and `active` use
this identical format string:
`"\x60<%d>\x60 *%s*\n%s *%s* of *%s* (*%.1f%%*) ↓ *%s*  ↑ *%s* R: *%s*\n\n"`
with the name passed through `mdReplacer`. -/
def richLine (fmt : Fmt) (t : Torrent) : Str :=
  lit "`<" ++ natStr t.id ++ lit ">` *" ++ mdReplace t.name ++ lit "*\n" ++
  fmt.status t ++ lit " *" ++ fmt.bytes t.haveBytes ++ lit "* of *" ++
  fmt.bytes t.sizeWhenDone ++ lit "* (*" ++ fmt.percent t ++ lit "%*) ↓ *" ++
  fmt.bytes t.rateDownload ++ lit "*  ↑ *" ++ fmt.bytes t.rateUpload ++
  lit "* R: *" ++ fmt.ratio t ++ lit "*\n\n"

/-- Rich line of the terminal render of `active`: the two rate values are
replaced by a dash, all other fields render as in `richLine`. -/
def frozenRichLine (fmt : Fmt) (t : Torrent) : Str :=
  lit "`<" ++ natStr t.id ++ lit ">` *" ++ mdReplace t.name ++ lit "*\n" ++
  fmt.status t ++ lit " *" ++ fmt.bytes t.haveBytes ++ lit "* of *" ++
  fmt.bytes t.sizeWhenDone ++ lit "* (*" ++ fmt.percent t ++
  lit "%*) ↓ *-*  ↑ *-* R: *" ++ fmt.ratio t ++ lit "*\n\n"

/-- Design-side template of the rich line with the two rate renderings
abstracted into slots, used to compare the live and frozen templates. -/
def richSlots (fmt : Fmt) (t : Torrent) (rdown rup : Str) : Str :=
  lit "`<" ++ natStr t.id ++ lit ">` *" ++ mdReplace t.name ++ lit "*\n" ++
  fmt.status t ++ lit " *" ++ fmt.bytes t.haveBytes ++ lit "* of *" ++
  fmt.bytes t.sizeWhenDone ++ lit "* (*" ++ fmt.percent t ++ lit "%*) ↓ *" ++
  rdown ++ lit "*  ↑ *" ++ rup ++
  lit "* R: *" ++ fmt.ratio t ++ lit "*\n\n"

/-- Detail text built by the `info` handler for one torrent; `trackers`
is the announce-host string the handler computed before its live loop. -/
def infoLine (fmt : Fmt) (trackers : Str) (t : Torrent) : Str :=
  lit "`<" ++ natStr t.id ++ lit ">` *" ++ mdReplace t.name ++ lit "*\n" ++
  fmt.status t ++ lit " *" ++ fmt.bytes t.haveBytes ++ lit "* of *" ++
  fmt.bytes t.sizeWhenDone ++ lit "* (*" ++ fmt.percent t ++ lit "%*) ↓ *" ++
  fmt.bytes t.rateDownload ++ lit "*  ↑ *" ++ fmt.bytes t.rateUpload ++
  lit "* R: *" ++ fmt.ratio t ++
  lit "*\nDL: *" ++ fmt.bytes t.downloadedEver ++ lit "* UP: *" ++
  fmt.bytes t.uploadedEver ++ lit "*\nAdded: *" ++ fmt.added t ++
  lit "*, ETA: *" ++ fmt.eta t ++ lit "*\nTrackers: `" ++ trackers ++ lit "`"

/-- Terminal render of the `info` live loop: the two rates become "- B"
and the ETA becomes "-"; every other field renders as in `infoLine`. -/
def frozenInfoLine (fmt : Fmt) (trackers : Str) (t : Torrent) : Str :=
  lit "`<" ++ natStr t.id ++ lit ">` *" ++ mdReplace t.name ++ lit "*\n" ++
  fmt.status t ++ lit " *" ++ fmt.bytes t.haveBytes ++ lit "* of *" ++
  fmt.bytes t.sizeWhenDone ++ lit "* (*" ++ fmt.percent t ++
  lit "%*) ↓ *- B*  ↑ *- B* R: *" ++ fmt.ratio t ++
  lit "*\nDL: *" ++ fmt.bytes t.downloadedEver ++ lit "* UP: *" ++
  fmt.bytes t.uploadedEver ++ lit "*\nAdded: *" ++ fmt.added t ++
  lit "*, ETA: *-*\nTrackers: `" ++ trackers ++ lit "`"

/-- Design-side template of the info text with the rate and ETA
renderings abstracted into slots. -/
def infoSlots (fmt : Fmt) (trackers : Str) (t : Torrent) (rdown rup et : Str) : Str :=
  lit "`<" ++ natStr t.id ++ lit ">` *" ++ mdReplace t.name ++ lit "*\n" ++
  fmt.status t ++ lit " *" ++ fmt.bytes t.haveBytes ++ lit "* of *" ++
  fmt.bytes t.sizeWhenDone ++ lit "* (*" ++ fmt.percent t ++ lit "%*) ↓ *" ++
  rdown ++ lit "*  ↑ *" ++ rup ++
  lit "* R: *" ++ fmt.ratio t ++
  lit "*\nDL: *" ++ fmt.bytes t.downloadedEver ++ lit "* UP: *" ++
  fmt.bytes t.uploadedEver ++ lit "*\nAdded: *" ++ fmt.added t ++
  lit "*, ETA: *" ++ et ++ lit "*\nTrackers: `" ++ trackers ++ lit "`"

/-- Filter of the `active` handler: nonzero download or upload rate. -/
def activeFilter (t : Torrent) : Bool :=
  decide (0 < t.rateDownload) || decide (0 < t.rateUpload)

/-- Block the `active` handler renders: one rich line per active item. -/
def activeBlock (fmt : Fmt) (ts : List Torrent) : Str :=
  ((ts.filter activeFilter).map (richLine fmt)).flatten

/-- Terminal block of the `active` live loop, from the same filter. -/
def frozenActiveBlock (fmt : Fmt) (ts : List Torrent) : Str :=
  ((ts.filter activeFilter).map (frozenRichLine fmt)).flatten

/-- Block the `downs` handler renders: a plain line per item whose status
is downloading or queued to download. -/
def downsBlock (ts : List Torrent) : Str :=
  ((ts.filter (fun t =>
    decide (t.status = StatusDownloading) ||
    decide (t.status = StatusDownloadPending))).map listLine).flatten

/-- Number of refresh ticks of every live loop (the `duration` constant). -/
def duration : Nat := 10

/-- Seconds between ticks (the `interval` constant). -/
def interval : Nat := 5

/-- Value of a variable that is reassigned from a query oracle on every
successful tick: the last `some` of the schedule, else the start value.
A failed query leaves the variable at its previous value; what the
external client would assign alongside a non-nil error is outside this
repository and is modelled from the spec, which states that all other
fields retain their last fetched values. -/
def lastSome {α : Type} (a : α) (qs : List (Option α)) : α :=
  qs.foldl (fun x o => o.getD x) a

/-- Tick loop of the `active` handler over a schedule of query results:
a failed `GetTorrents` skips its edit (`continue`) but still consumes
the tick; a successful one re-renders and edits.  Returns the edits in
order and the final value of the `torrents` variable. -/
def activeTicks (fmt : Fmt) : List (Option (List Torrent)) → List Torrent →
    List Str × List Torrent
  | [], ts => ([], ts)
  | none :: qs, ts => activeTicks fmt qs ts
  | some ts' :: qs, ts =>
    let r := activeTicks fmt qs ts'
    (activeBlock fmt ts' :: r.1, r.2)

/-- Every edit issued by the live part of `active`: the tick edits, then
the single frozen edit built from the last fetched collection. -/
def activeLive (fmt : Fmt) (qs : List (Option (List Torrent)))
    (ts0 : List Torrent) : List Str :=
  (activeTicks fmt qs ts0).1 ++ [frozenActiveBlock fmt (activeTicks fmt qs ts0).2]

/-- Aggregate transfer counters returned by `GetStats` (external). -/
structure Stats where
  downloadSpeed : Nat
  uploadSpeed : Nat

/-- Text of the `speed` message. -/
def speedMsg (hb : Nat → Str) (st : Stats) : Str :=
  lit "↓ " ++ hb st.downloadSpeed ++ lit "  ↑ " ++ hb st.uploadSpeed

/-- Tick loop of the `speed` handler: failed `GetStats` skips the edit
but consumes the tick. -/
def speedTicks (hb : Nat → Str) : List (Option Stats) → List Str
  | [] => []
  | none :: qs => speedTicks hb qs
  | some st :: qs => speedMsg hb st :: speedTicks hb qs

/-- Every edit issued by the live part of `speed`: tick edits, then the
fixed frozen edit. -/
def speedLive (hb : Nat → Str) (qs : List (Option Stats)) : List Str :=
  speedTicks hb qs ++ [lit "↓ - B  ↑ - B"]

/-- Tick loop of the live goroutine of `info`, over a schedule of
`GetTorrent` results; the trackers string was computed once before the
loop and is captured unchanged. -/
def infoTicks (fmt : Fmt) (trackers : Str) : List (Option Torrent) → Torrent →
    List Str × Torrent
  | [], t => ([], t)
  | none :: qs, t => infoTicks fmt trackers qs t
  | some t' :: qs, t =>
    let r := infoTicks fmt trackers qs t'
    (infoLine fmt trackers t' :: r.1, r.2)

/-- Every edit issued by the live goroutine of `info`. -/
def infoLive (fmt : Fmt) (trackers : Str) (qs : List (Option Torrent))
    (t0 : Torrent) : List Str :=
  (infoTicks fmt trackers qs t0).1 ++
    [frozenInfoLine fmt trackers (infoTicks fmt trackers qs t0).2]

/-- Digit accumulation used by the Atoi model. -/
def digitsValAux : Str → Nat → Option Nat
  | [], acc => some acc
  | c :: cs, acc =>
    if c.isDigit then digitsValAux cs (acc * 10 + (c.toNat - 48)) else none

/-- Nonempty all-digit string value. -/
def digitsVal : Str → Option Nat
  | [] => none
  | cs => digitsValAux cs 0

/-- Model of `strconv.Atoi` (external standard library): an optional sign
followed by one or more decimal digits; anything else is an error.  The
64-bit range check of the library is not modelled; every input of
interest is small. -/
def atoi (s : Str) : Option Int :=
  match s with
  | [] => none
  | '+' :: rest => (digitsVal rest).map (fun n => (n : Int))
  | '-' :: rest => (digitsVal rest).map (fun n => -(n : Int))
  | _ => (digitsVal s).map (fun n => (n : Int))

/-- Reply of `info` to a non-numeric id. -/
def infoNaN (id : Str) : Str := lit "*info:* " ++ id ++ lit " is not a number"

/-- Reply of `info` to an id the manager does not know. -/
def infoNotFound (n : Int) : Str :=
  lit "*info:* Can't find a torrent with an ID of " ++ intStr n

/-- Per-id loop of the `info` handler: a parse failure or a failed
`GetTorrent` reports and continues with the next id; a success sends the
detail text — and, when live updates are disabled, `info` returns
immediately after the first successful send. -/
def infoBatch (fmt : Fmt) (noLive : Bool) (getT : Int → Option Torrent) :
    List Str → List Str
  | [] => []
  | id :: rest =>
    match atoi id with
    | none => infoNaN id :: infoBatch fmt noLive getT rest
    | some n =>
      match getT n with
      | none => infoNotFound n :: infoBatch fmt noLive getT rest
      | some t =>
        if noLive then [infoLine fmt (fmt.trackersOf t) t]
        else infoLine fmt (fmt.trackersOf t) t :: infoBatch fmt noLive getT rest

/-- Reply of `stop` to a non-numeric id. -/
def stopNaN (id : Str) : Str := lit "*stop:* " ++ id ++ lit " is not a number"

/-- Reply of `stop` when the post-mutation name lookup fails. -/
def stopFail (n : Int) : Str :=
  lit "[fail] *stop:* No torrent with an ID of " ++ intStr n

/-- Per-id loop of the `stop` handler: a parse failure or a failed
`StopTorrent` reports and continues; a failed follow-up `GetTorrent`
reports and RETURNS, abandoning the rest of the batch. -/
def stopBatch (stopT : Int → Except Str Str) (getT : Int → Option Torrent) :
    List Str → List Str
  | [] => []
  | id :: rest =>
    match atoi id with
    | none => stopNaN id :: stopBatch stopT getT rest
    | some n =>
      match stopT n with
      | Except.error e => (lit "*stop:* " ++ e) :: stopBatch stopT getT rest
      | Except.ok st =>
        match getT n with
        | none => [stopFail n]
        | some tor =>
          (lit "[" ++ st ++ lit "] *stop:* " ++ tor.name) ::
            stopBatch stopT getT rest

/-- Reply of `start` when the post-mutation name lookup fails. -/
def startFail (n : Int) : Str :=
  lit "[fail] *start:* No torrent with an ID of " ++ intStr n

/-- Per-id loop of the `start` handler, identical in structure to the
`stop` loop. -/
def startBatch (startT : Int → Except Str Str) (getT : Int → Option Torrent) :
    List Str → List Str
  | [] => []
  | id :: rest =>
    match atoi id with
    | none => (lit "*start:* " ++ id ++ lit " is not a number") ::
        startBatch startT getT rest
    | some n =>
      match startT n with
      | Except.error e => (lit "*start:* " ++ e) :: startBatch startT getT rest
      | Except.ok st =>
        match getT n with
        | none => [startFail n]
        | some tor =>
          (lit "[" ++ st ++ lit "] *start:* " ++ tor.name) ::
            startBatch startT getT rest

/-- Reply of `check` when the post-mutation name lookup fails. -/
def checkFail (n : Int) : Str :=
  lit "[fail] *check:* No torrent with an ID of " ++ intStr n

/-- Per-id loop of the `check` handler, identical in structure to the
`stop` loop. -/
def checkBatch (checkT : Int → Except Str Str) (getT : Int → Option Torrent) :
    List Str → List Str
  | [] => []
  | id :: rest =>
    match atoi id with
    | none => (lit "*check:* " ++ id ++ lit " is not a number") ::
        checkBatch checkT getT rest
    | some n =>
      match checkT n with
      | Except.error e => (lit "*check:* " ++ e) :: checkBatch checkT getT rest
      | Except.ok st =>
        match getT n with
        | none => [checkFail n]
        | some tor =>
          (lit "[" ++ st ++ lit "] *check:* " ++ tor.name) ::
            checkBatch checkT getT rest

/-- Reply of `del` to a non-numeric id. -/
def delNaN (id : Str) : Str := lit "*del:* " ++ id ++ lit " is not an ID"

/-- Per-id loop of the `del` handler: a parse failure or a failed
`DeleteTorrent` reports and RETURNS, abandoning the rest of the batch. -/
def delBatch (delT : Int → Except Str Str) : List Str → List Str
  | [] => []
  | id :: rest =>
    match atoi id with
    | none => [delNaN id]
    | some n =>
      match delT n with
      | Except.error e => [lit "*del:* " ++ e]
      | Except.ok name => (lit "*Deleted:* " ++ name) :: delBatch delT rest

/-- Reply of `deldata` to a non-numeric id. -/
def deldataNaN (id : Str) : Str := lit "*deldata:* " ++ id ++ lit " is not an ID"

/-- Per-id loop of the `deldata` handler, identical in structure to the
`del` loop. -/
def deldataBatch (ddT : Int → Except Str Str) : List Str → List Str
  | [] => []
  | id :: rest =>
    match atoi id with
    | none => [deldataNaN id]
    | some n =>
      match ddT n with
      | Except.error e => [lit "*deldata:* " ++ e]
      | Except.ok name => (lit "Deleted with data: " ++ name) :: deldataBatch ddT rest

/-- Actions a handler can take against its collaborators: send a reply or
set the shared sort mode (the external `SetSort` constants are modelled
as the index of the field together with the direction flag). -/
inductive Act where
  | send (text : Str)
  | setSort (field : Nat) (reversed : Bool)
deriving DecidableEq

/-- Usage text of the `sort` handler. -/
def sortUsage : Str :=
  lit "*sort* takes one of:\n\t\t\t(*id, name, age, size, progress, downspeed, upspeed, download, upload, ratio*)\n\t\t\toptionally start with (*rev*) for reversed order\n\t\t\te.g. \"*sort rev size*\" to get biggest torrents first."

/-- Field table of the `sort` switch. -/
def sortModeOf (f : Str) : Option Nat :=
  if f = lit "id" then some 0
  else if f = lit "name" then some 1
  else if f = lit "age" then some 2
  else if f = lit "size" then some 3
  else if f = lit "progress" then some 4
  else if f = lit "downspeed" then some 5
  else if f = lit "upspeed" then some 6
  else if f = lit "download" then some 7
  else if f = lit "upload" then some 8
  else if f = lit "ratio" then some 9
  else none

/-- Model of the `sort` handler: with no tokens it sends the usage text;
a leading "rev" sets the direction flag and SLICES IT OFF, after which
the switch reads `tokens[0]` again — on the input consisting only of
"rev" that index hits an empty slice, which is a runtime crash of the
goroutine and therefore of the process (`none`). -/
def sortHandler (tokens : List Str) : Option (List Act) :=
  match tokens with
  | [] => some [Act.send sortUsage]
  | t0 :: rest =>
    let p : Bool × List Str :=
      if goToLower t0 = lit "rev" then (true, rest) else (false, t0 :: rest)
    match p.2 with
    | [] => none
    | f :: _ =>
      match sortModeOf (goToLower f) with
      | some m =>
        if p.1 then some [Act.setSort m true, Act.send (lit "*sort:* reversed " ++ f)]
        else some [Act.setSort m false, Act.send (lit "*sort:* " ++ f)]
      | none => some [Act.send (lit "unkown sorting method")]

/-- Clamp of the `head`, `tail` and `latest` handlers:
`if n <= 0 || n > len(torrents) { n = len(torrents) }`. -/
def boundN (n : Int) (len : Nat) : Int :=
  if n ≤ 0 ∨ (len : Int) < n then (len : Int) else n

/-- Go slice expression `ts[:n]`; out-of-range indices crash (`none`). -/
def goSliceTo (ts : List Torrent) (n : Int) : Option (List Torrent) :=
  if 0 ≤ n ∧ n ≤ (ts.length : Int) then some (ts.take n.toNat) else none

/-- Go slice expression `ts[n:]`; out-of-range indices crash (`none`). -/
def goSliceFrom (ts : List Torrent) (n : Int) : Option (List Torrent) :=
  if 0 ≤ n ∧ n ≤ (ts.length : Int) then some (ts.drop n.toNat) else none

/-- Items `head` renders: `torrents[:n]` after the clamp. -/
def headSlice (n : Int) (ts : List Torrent) : Option (List Torrent) :=
  goSliceTo ts (boundN n ts.length)

/-- Items `tail` renders: `torrents[len(torrents)-n:]` after the clamp. -/
def tailSlice (n : Int) (ts : List Torrent) : Option (List Torrent) :=
  goSliceFrom ts ((ts.length : Int) - boundN n ts.length)

/-- Items `latest` renders: the clamp is computed on the fetched
collection, the collection is then age-sorted in place by the external
`SortAge` (modelled as a length-preserving reordering), and `[:n]` is
taken. -/
def latestSlice (sorter : List Torrent → List Torrent) (n : Int)
    (ts : List Torrent) : Option (List Torrent) :=
  goSliceTo (sorter ts) (boundN n ts.length)

/-- Rendering collaborator that always produces the empty text. -/
def emptyF {α : Type} : α → Str := fun _ => []

/-- Formatter instance with empty renderings, for concrete evaluation. -/
def fmt0 : Fmt := ⟨emptyF, emptyF, emptyF, emptyF, emptyF, emptyF, emptyF⟩

/-- Formatter whose ETA rendering is nonempty, for concrete evaluation. -/
def fmt1 : Fmt := ⟨emptyF, emptyF, emptyF, emptyF, fun _ => lit "2h", emptyF, emptyF⟩

/-- Concrete active torrent. -/
def t1 : Torrent := ⟨1, lit "a", 4, 0, 0, 1, 0, 0, 0, 0, [], 0⟩

/-- Concrete tick schedule of length `duration` with four successes. -/
def q1 : List (Option (List Torrent)) :=
  [some [t1], none, some [], none, none, some [t1], none, none, some [], none]

/-- Concrete all-failing stats schedule of length `duration`. -/
def r1 : List (Option Stats) := List.replicate 10 none

theorem findNL_le_and_newline (t : GoStr) :
    ∀ i j, findNL t i = some j → j ≤ i ∧ t[j]? = some 10 := by
  intro i
  induction i with
  | zero =>
    intro j h
    unfold findNL at h
    split at h
    next h10 =>
      cases h
      exact ⟨Nat.le_refl 0, h10⟩
    next => simp at h
  | succ i ih =>
    intro j h
    unfold findNL at h
    split at h
    next h10 =>
      cases h
      exact ⟨Nat.le_refl _, h10⟩
    next =>
      obtain ⟨h1, h2⟩ := ih j h
      exact ⟨Nat.le_succ_of_le h1, h2⟩

theorem findNL_none_of_no_newline (t : GoStr)
    (h : ∀ j : Nat, t[j]? ≠ some 10) : ∀ i, findNL t i = none := by
  intro i
  induction i with
  | zero => unfold findNL; rw [if_neg (h 0)]
  | succ i ih =>
    unfold findNL
    split
    next h10 => exact absurd h10 (h (i + 1))
    next => exact ih

theorem runeCount_le_length (s : GoStr) : runeCount s ≤ s.length :=
  List.length_filter_le _ s

theorem runeCount_replicate97 (n : Nat) :
    runeCount (List.replicate n 97) = n := by
  induction n with
  | zero => rfl
  | succ n ih =>
    have hr : List.replicate (n + 1) 97 = 97 :: List.replicate n 97 := rfl
    unfold runeCount
    rw [hr, List.filter_cons_of_pos (by decide), List.length_cons]
    exact congrArg (· + 1) ih

theorem replicate_getElem?_eq (n a : Nat) :
    ∀ (j b : Nat), (List.replicate n a)[j]? = some b → b = a := by
  induction n with
  | zero => intro j b h; simp at h
  | succ n ih =>
    intro j b h
    cases j with
    | zero =>
      rw [show List.replicate (n + 1) a = a :: List.replicate n a from rfl] at h
      simp at h
      exact h.symm
    | succ j =>
      rw [show List.replicate (n + 1) a = a :: List.replicate n a from rfl] at h
      exact ih j b (by simpa using h)

/-- If the backward scan lands on index 0, the loop makes no progress and
never terminates. -/
theorem sendLoop_stuck (t : GoStr) (hrc : 4096 < runeCount t)
    (hf : findNL t 4095 = some 0) : ∀ fuel, sendLoop fuel t = none := by
  intro fuel
  induction fuel with
  | zero => rfl
  | succ fuel ih =>
    unfold sendLoop
    rw [if_pos hrc, hf, Option.some_bind, List.drop_zero, ih, Option.map_none']

theorem sendLoop_spec :
    ∀ fuel t cs, sendLoop fuel t = some cs →
      cs ≠ [] ∧ cs.flatten = t ∧ (∀ c ∈ cs, runeCount c ≤ 4096) ∧
      (∀ c ∈ cs.tail, c.head? = some 10) ∧
      (∀ c0, cs.head? = some c0 → c0.head? = t.head?) := by
  intro fuel
  induction fuel with
  | zero => intro t cs h; exact absurd h (by simp [sendLoop])
  | succ fuel ih =>
    intro t cs h
    unfold sendLoop at h
    by_cases hrc : 4096 < runeCount t
    · rw [if_pos hrc, Option.bind_eq_some] at h
      obtain ⟨stop, hf, h⟩ := h
      rw [Option.map_eq_some'] at h
      obtain ⟨cs', hrec, rfl⟩ := h
      obtain ⟨hne, hflat, hbound, htail, hhead⟩ := ih (t.drop stop) cs' hrec
      obtain ⟨hle, hnl⟩ := findNL_le_and_newline t 4095 stop hf
      have htlen : 4096 < t.length := lt_of_lt_of_le hrc (runeCount_le_length t)
      -- the scan cannot have landed on 0: the loop would never have produced a value
      rcases Nat.eq_zero_or_pos stop with hz | hpos
      · subst hz
        rw [List.drop_zero] at hrec
        exact absurd hrec (by rw [sendLoop_stuck t hrc hf fuel]; simp)
      · have hdrop_head : (t.drop stop).head? = some 10 := by
          rw [List.head?_drop]; exact hnl
        refine ⟨by simp, ?_, ?_, ?_, ?_⟩
        · rw [List.flatten_cons, hflat, List.take_append_drop]
        · intro c hc
          rcases List.mem_cons.mp hc with hc | hc
          · subst hc
            calc runeCount (t.take stop) ≤ (t.take stop).length :=
                  runeCount_le_length _
              _ ≤ stop := by simp [List.length_take]
              _ ≤ 4096 := by omega
          · exact hbound c hc
        · intro c hc
          simp only [List.tail_cons] at hc
          cases cs' with
          | nil => exact absurd rfl hne
          | cons a l =>
            rcases List.mem_cons.mp hc with hc | hc
            · subst hc
              rw [hhead c (by simp), hdrop_head]
            · exact htail c (by simpa using hc)
        · intro c0 hc0
          simp only [List.head?_cons, Option.some.injEq] at hc0
          subst hc0
          cases t with
          | nil => simp at htlen
          | cons a l =>
            cases stop with
            | zero => omega
            | succ s => simp [List.take]
    · rw [if_neg hrc] at h
      cases h
      refine ⟨by simp, by simp, ?_, by simp, by simp⟩
      intro c hc
      simp only [List.mem_singleton] at hc
      subst hc
      omega

theorem sendLoopID_eq (ids : Nat → Int) :
    ∀ fuel t k cs, sendLoop fuel t = some cs →
      sendLoopID ids k fuel t = some (ids (k + (cs.length - 1))) := by
  intro fuel
  induction fuel with
  | zero => intro t k cs h; exact absurd h (by simp [sendLoop])
  | succ fuel ih =>
    intro t k cs h
    unfold sendLoop at h
    unfold sendLoopID
    by_cases hrc : 4096 < runeCount t
    · rw [if_pos hrc] at h ⊢
      rw [Option.bind_eq_some] at h
      obtain ⟨stop, hf, h⟩ := h
      rw [Option.map_eq_some'] at h
      obtain ⟨cs', hrec, rfl⟩ := h
      have hne := (sendLoop_spec fuel (t.drop stop) cs' hrec).1
      have hlen : 1 ≤ cs'.length := by
        cases cs' with
        | nil => exact absurd rfl hne
        | cons a l => simp
      rw [hf, Option.some_bind, ih (t.drop stop) (k + 1) cs' hrec]
      rw [List.length_cons]
      exact congrArg (fun m => some (ids m)) (by omega)
    · rw [if_neg hrc] at h ⊢
      cases h
      simp

theorem runeCount_append (a b : GoStr) :
    runeCount (a ++ b) = runeCount a + runeCount b := by
  simp [runeCount, List.filter_append]

/-- C1: whenever the chunking of `send` completes, every chunk has at most
4096 characters, every chunk after the first starts at a newline (so each
boundary falls exactly on a newline), and the chunks concatenate back to
the original text; a text of at most 4096 characters is delivered whole.
The original claim also asserted termination on every input, which fails
(see the counterexample); the amended claim asserts the three properties
of every completed chunking. -/
theorem send_chunk_props (t : GoStr) :
    (∀ cs, sendChunks t = some cs →
      cs ≠ [] ∧ cs.flatten = t ∧ (∀ c ∈ cs, runeCount c ≤ 4096) ∧
      ∀ c ∈ cs.tail, c.head? = some 10) ∧
    (runeCount t ≤ 4096 → sendChunks t = some [t]) := by
  constructor
  · intro cs h
    obtain ⟨h1, h2, h3, h4, _⟩ := sendLoop_spec (t.length + 1) t cs h
    exact ⟨h1, h2, h3, h4⟩
  · intro hle
    show sendLoop (t.length + 1) t = some [t]
    unfold sendLoop
    rw [if_neg (by omega)]

theorem send_chunk_props_witness : sendChunks [97, 98] = some [[97, 98]] :=
  (send_chunk_props [97, 98]).2 (by decide)

/-- C1 counterexample: on an oversize text with no newline at all, the
backward newline scan of `send` runs past index 0 and the byte access
crashes, so the chunking procedure does not terminate (normally) on every
input text, contrary to the claim. -/
theorem send_no_newline_crash : sendChunks noNewlineText = none := by
  have hrc : runeCount noNewlineText = 4097 := runeCount_replicate97 4097
  have hno : ∀ j : Nat, noNewlineText[j]? ≠ some 10 := by
    intro j h
    exact absurd (replicate_getElem?_eq 4097 97 j 10 h) (by decide)
  have hfind := findNL_none_of_no_newline _ hno 4095
  show sendLoop (noNewlineText.length + 1) noNewlineText = none
  rw [show noNewlineText.length = 4097 from by
    unfold noNewlineText; rw [List.length_replicate]]
  show sendLoop (4097 + 1) noNewlineText = none
  unfold sendLoop
  rw [if_pos (by rw [hrc]; norm_num), hfind, Option.none_bind]

/-- C5 (amended): `send` returns the platform identifier of the LAST sent
chunk, not of the first: only the response of the final `Bot.Send` call
is kept, so for a text split into `n` chunks the returned anchor is the
identifier of send number `n - 1` (zero-based). -/
theorem send_returns_last_chunk_id (t : GoStr) (ids : Nat → Int)
    (cs : List GoStr) (h : sendChunks t = some cs) :
    sendMsgID t ids = some (ids (cs.length - 1)) := by
  unfold sendMsgID
  simpa using sendLoopID_eq ids (t.length + 1) t 0 cs h

theorem send_returns_last_chunk_id_witness :
    sendMsgID [97] (fun k => (k : Int)) = some 0 := by
  simpa using send_returns_last_chunk_id [97] (fun k => (k : Int)) [[97]] (by decide)

/-- C5 counterexample: a text that splits into two chunks.  The platform
assigns identifier `k` to the `k`-th send; `send` returns identifier 1
(the second, last chunk), not identifier 0 of the first chunk as the
claim states. -/
theorem send_anchor_not_first_chunk :
    sendMsgID twoChunkText (fun k => (k : Int)) = some 1 ∧
    (∃ cs, sendChunks twoChunkText = some cs ∧ cs.length = 2) ∧
    (1 : Int) ≠ 0 := by
  have hlen : twoChunkText.length = 4098 := by
    unfold twoChunkText
    rw [List.length_append, List.length_replicate]
    rfl
  have hrc : runeCount twoChunkText = 4098 := by
    unfold twoChunkText
    rw [runeCount_append, runeCount_replicate97,
      show runeCount (10 :: [97, 97]) = 3 from by decide]
  have hget : twoChunkText[4094 + 1]? = some 10 := by
    unfold twoChunkText
    rw [List.getElem?_append_right (by rw [List.length_replicate])]
    rw [List.length_replicate]
    decide
  have hfind : findNL twoChunkText 4095 = some 4095 := by
    show findNL twoChunkText (4094 + 1) = some (4094 + 1)
    unfold findNL
    rw [hget]
  have hdrop : twoChunkText.drop 4095 = 10 :: [97, 97] := by
    unfold twoChunkText
    have h := List.drop_left (List.replicate 4095 97) (10 :: [97, 97])
    rwa [List.length_replicate] at h
  have hsmall : sendLoop 4098 (10 :: [97, 97]) = some [10 :: [97, 97]] := by
    show sendLoop (4097 + 1) (10 :: [97, 97]) = _
    unfold sendLoop
    rw [if_neg (by decide)]
  refine ⟨?_, ⟨twoChunkText.take 4095 :: [10 :: [97, 97]], ?_, by simp⟩, by decide⟩
  · show sendLoopID _ 0 (twoChunkText.length + 1) _ = some 1
    rw [hlen]
    show sendLoopID _ 0 (4098 + 1) _ = some 1
    unfold sendLoopID
    rw [if_pos (by rw [hrc]; norm_num), hfind, Option.some_bind, hdrop]
    show sendLoopID _ 1 (4097 + 1) _ = some 1
    unfold sendLoopID
    rw [if_neg (by decide)]
    norm_num
  · show sendLoop (twoChunkText.length + 1) twoChunkText = _
    rw [hlen]
    show sendLoop (4098 + 1) twoChunkText = _
    unfold sendLoop
    rw [if_pos (by rw [hrc]; norm_num), hfind, Option.some_bind, hdrop, hsmall,
      Option.map_some']

theorem seg_rich_dashes :
    lit "%*) ↓ *-*  ↑ *-* R: *" =
      lit "%*) ↓ *" ++ lit "-" ++ lit "*  ↑ *" ++ lit "-" ++ lit "* R: *" := by
  decide

theorem seg_info_dashes :
    lit "%*) ↓ *- B*  ↑ *- B* R: *" =
      lit "%*) ↓ *" ++ lit "- B" ++ lit "*  ↑ *" ++ lit "- B" ++ lit "* R: *" := by
  decide

theorem seg_info_eta :
    lit "*, ETA: *-*\nTrackers: `" =
      lit "*, ETA: *" ++ lit "-" ++ lit "*\nTrackers: `" := by
  decide

theorem frozen_rich_eq_slots (fmt : Fmt) (t : Torrent) :
    frozenRichLine fmt t = richSlots fmt t (lit "-") (lit "-") := by
  unfold frozenRichLine richSlots
  rw [seg_rich_dashes]
  simp only [List.append_assoc]

theorem frozen_info_eq_slots (fmt : Fmt) (trackers : Str) (t : Torrent) :
    frozenInfoLine fmt trackers t =
      infoSlots fmt trackers t (lit "- B") (lit "- B") (lit "-") := by
  unfold frozenInfoLine infoSlots
  rw [seg_info_dashes, seg_info_eta]
  simp only [List.append_assoc]

theorem activeTicks_spec (fmt : Fmt) :
    ∀ (qs : List (Option (List Torrent))) (ts : List Torrent),
      (activeTicks fmt qs ts).1.length = qs.countP Option.isSome ∧
      (activeTicks fmt qs ts).2 = lastSome ts qs := by
  intro qs
  induction qs with
  | nil => intro ts; exact ⟨rfl, rfl⟩
  | cons q qs ih =>
    intro ts
    cases q with
    | none =>
      have h := ih ts
      refine ⟨?_, h.2⟩
      show (activeTicks fmt qs ts).1.length = _
      rw [h.1, List.countP_cons]
      simp
    | some ts' =>
      have h := ih ts'
      refine ⟨?_, h.2⟩
      show (activeTicks fmt qs ts').1.length + 1 = _
      rw [h.1, List.countP_cons]
      simp [Option.isSome]

theorem speedTicks_len (hb : Nat → Str) :
    ∀ qs : List (Option Stats),
      (speedTicks hb qs).length = qs.countP Option.isSome := by
  intro qs
  induction qs with
  | nil => rfl
  | cons q qs ih =>
    cases q with
    | none => rw [List.countP_cons]; simpa using ih
    | some st =>
      show (speedTicks hb qs).length + 1 = _
      rw [ih, List.countP_cons]
      simp [Option.isSome]

theorem infoTicks_spec (fmt : Fmt) (trackers : Str) :
    ∀ (qs : List (Option Torrent)) (t : Torrent),
      (infoTicks fmt trackers qs t).2 = lastSome t qs := by
  intro qs
  induction qs with
  | nil => intro t; rfl
  | cons q qs ih =>
    intro t
    cases q with
    | none => exact ih t
    | some t' => exact ih t'

/-- C2 (amended): in a live loop with tick budget `duration`, each
successful re-query tick issues exactly one intermediate edit and each
failed re-query consumes its tick without issuing an edit, so the loop
issues one intermediate edit per successful tick — `N` only when all `N`
ticks succeed — followed by exactly one terminal frozen edit with
nothing issued afterwards (shown for the `active` and `speed` loops). -/
theorem live_edit_counts (fmt : Fmt) (hb : Nat → Str)
    (qs : List (Option (List Torrent))) (rs : List (Option Stats))
    (ts0 : List Torrent) (hq : qs.length = duration) (hr : rs.length = duration) :
    (∃ es, activeLive fmt qs ts0 = es ++ [frozenActiveBlock fmt (lastSome ts0 qs)] ∧
      es.length = qs.countP Option.isSome) ∧
    speedLive hb rs = speedTicks hb rs ++ [lit "↓ - B  ↑ - B"] ∧
    (speedTicks hb rs).length = rs.countP Option.isSome := by
  refine ⟨⟨(activeTicks fmt qs ts0).1, ?_, (activeTicks_spec fmt qs ts0).1⟩,
    rfl, speedTicks_len hb rs⟩
  unfold activeLive
  rw [(activeTicks_spec fmt qs ts0).2]

theorem live_edit_counts_witness :
    ∃ es, activeLive fmt0 q1 [] = es ++ [frozenActiveBlock fmt0 (lastSome [] q1)] ∧
      es.length = q1.countP Option.isSome :=
  (live_edit_counts fmt0 (fun _ => []) q1 r1 [] (by decide) (by decide)).1

/-- C2 counterexample: with tick budget 10 and every re-query failing,
the `active` loop issues 0 intermediate edits — not exactly N = 10 —
before its single frozen edit, refuting "exactly N intermediate edits
occur ... regardless of how many re-query failures occurred". -/
theorem live_all_failed_ticks_fewer_edits :
    activeLive fmt0 (List.replicate duration none) [] =
      [frozenActiveBlock fmt0 []] ∧
    (activeLive fmt0 (List.replicate duration none) []).length ≠ duration + 1 := by
  constructor
  · decide
  · decide

/-- C3: the `sort` handler evaluates `tokens[0]` after slicing off a
leading "rev" token; on the bare input `sort rev` the remaining slice is
empty and the index expression is a runtime crash that kills the whole
process, contradicting the design rule that nothing beyond startup
configuration and launch authentication is fatal.  A field after "rev"
takes the normal path. -/
theorem sort_rev_crashes :
    sortHandler [lit "rev"] = none ∧
    sortHandler [lit "rev", lit "size"] =
      some [Act.setSort 3 true, Act.send (lit "*sort:* reversed " ++ lit "size")] := by
  constructor
  · decide
  · decide

/-- C4 (amended): authorization is case-insensitive and every at-sign is
removed from the CONFIGURED entries at load time, but the inbound
identity is only lower-cased, never stripped of a leading at-sign: the
candidate matches exactly when its lower-casing equals the loaded form
of some configured entry. -/
theorem master_match_amended (inbound : Str) (entries : List Str) :
    masterContains (loadMasters entries) inbound = true ↔
      ∃ e ∈ entries, removeAts (goToLower e) = goToLower inbound := by
  unfold masterContains loadMasters
  rw [List.any_eq_true]
  constructor
  · rintro ⟨x, hx, hbeq⟩
    obtain ⟨e, he, rfl⟩ := List.mem_map.mp hx
    exact ⟨e, he, by simpa using hbeq⟩
  · rintro ⟨e, he, heq⟩
    exact ⟨removeAts (goToLower e), List.mem_map_of_mem _ he, by simpa using heq⟩

theorem master_match_amended_witness :
    ∃ e ∈ [lit "@bob"], removeAts (goToLower e) = goToLower (lit "Bob") :=
  (master_match_amended (lit "Bob") [lit "@bob"]).mp (by decide)

/-- C4 counterexample: configured entry "Bob", inbound identity "@bob".
The claim says the leading at-sign is ignored on both sides, so this
pair should be authorized; the code strips at-signs only from the
configured side and rejects it. -/
theorem inbound_at_not_stripped :
    masterContains (loadMasters [lit "Bob"]) (lit "@bob") = false := by decide

/-- C6 (amended): `info` reports a parse failure or a failed lookup
per-item and continues, producing exactly one reply per id (live mode);
`stop` (and identically `start` and `check`) continues past parse and
mutation failures but ABORTS the batch when the post-mutation name
lookup fails; `del` and `deldata` abort the batch at the first parse
failure or failed removal. -/
theorem batch_failure_behavior (fmt : Fmt) (getT getN : Int → Option Torrent)
    (stopT startT checkT delT ddT : Int → Except Str Str) :
    (∀ tokens, (infoBatch fmt false getT tokens).length = tokens.length) ∧
    (∀ t rest, atoi t = none →
      stopBatch stopT getN (t :: rest) = stopNaN t :: stopBatch stopT getN rest ∧
      delBatch delT (t :: rest) = [delNaN t] ∧
      deldataBatch ddT (t :: rest) = [deldataNaN t]) ∧
    (∀ t n rest e, atoi t = some n → stopT n = Except.error e →
      stopBatch stopT getN (t :: rest) =
        (lit "*stop:* " ++ e) :: stopBatch stopT getN rest) ∧
    (∀ t n rest s, atoi t = some n → stopT n = Except.ok s → getN n = none →
      stopBatch stopT getN (t :: rest) = [stopFail n]) ∧
    (∀ t n rest s, atoi t = some n → startT n = Except.ok s → getN n = none →
      startBatch startT getN (t :: rest) = [startFail n]) ∧
    (∀ t n rest s, atoi t = some n → checkT n = Except.ok s → getN n = none →
      checkBatch checkT getN (t :: rest) = [checkFail n]) ∧
    (∀ t n rest e, atoi t = some n → delT n = Except.error e →
      delBatch delT (t :: rest) = [lit "*del:* " ++ e]) := by
  refine ⟨?_, ?_, ?_, ?_, ?_, ?_, ?_⟩
  · intro tokens
    induction tokens with
    | nil => rfl
    | cons t rest ih =>
      cases h : atoi t with
      | none => simp [infoBatch, h, ih]
      | some n =>
        cases hg : getT n with
        | none => simp [infoBatch, h, hg, ih]
        | some tor => simp [infoBatch, h, hg, ih]
  · intro t rest h
    exact ⟨by simp [stopBatch, h], by simp [delBatch, h], by simp [deldataBatch, h]⟩
  · intro t n rest e ha hs
    simp [stopBatch, ha, hs]
  · intro t n rest s ha hs hg
    simp [stopBatch, ha, hs, hg]
  · intro t n rest s ha hs hg
    simp [startBatch, ha, hs, hg]
  · intro t n rest s ha hs hg
    simp [checkBatch, ha, hs, hg]
  · intro t n rest e ha hd
    simp [delBatch, ha, hd]

theorem batch_failure_behavior_witness :
    stopBatch (fun _ => Except.ok (lit "s")) (fun _ => none) [lit "y", lit "2"] =
      stopNaN (lit "y") ::
        stopBatch (fun _ => Except.ok (lit "s")) (fun _ => none) [lit "2"] :=
  ((batch_failure_behavior fmt0 (fun _ => none) (fun _ => none)
    (fun _ => Except.ok (lit "s")) (fun _ => Except.ok (lit "s"))
    (fun _ => Except.ok (lit "s")) (fun _ => Except.ok (lit "T"))
    (fun _ => Except.ok (lit "T"))).2.1 (lit "y") [lit "2"] (by decide)).1

/-- C6 counterexample: `del x 2` with a manager that would delete item 2
successfully.  The first id is malformed; the claim says an error is
reported for it and processing continues with id 2, but the handler
returns after the first error, so only one reply exists and item 2 is
never processed. -/
theorem del_batch_aborts :
    delBatch (fun _ => Except.ok (lit "T")) [lit "x", lit "2"] = [delNaN (lit "x")] ∧
    (delBatch (fun _ => Except.ok (lit "T")) [lit "x", lit "2"]).length ≠ 2 := by
  constructor
  · decide
  · decide

/-- C7 (amended): relative to the live template, the terminal frozen
render of `active` replaces exactly the two transfer-rate fields with
the placeholder "-", and the frozen render of `info` replaces the two
transfer-rate fields with "- B" AND the ETA field with "-"; every other
field renders from the same last-fetched snapshot, the frozen edit is
issued exactly once, last, and the session then terminates. -/
theorem frozen_render_amended (fmt : Fmt) (t : Torrent) (trackers : Str)
    (qs : List (Option (List Torrent))) (ps : List (Option Torrent))
    (ts0 : List Torrent) (t0 : Torrent) :
    richLine fmt t = richSlots fmt t (fmt.bytes t.rateDownload) (fmt.bytes t.rateUpload) ∧
    frozenRichLine fmt t = richSlots fmt t (lit "-") (lit "-") ∧
    infoLine fmt trackers t =
      infoSlots fmt trackers t (fmt.bytes t.rateDownload) (fmt.bytes t.rateUpload) (fmt.eta t) ∧
    frozenInfoLine fmt trackers t = infoSlots fmt trackers t (lit "- B") (lit "- B") (lit "-") ∧
    (∃ es, activeLive fmt qs ts0 = es ++ [frozenActiveBlock fmt (lastSome ts0 qs)]) ∧
    (∃ es, infoLive fmt trackers ps t0 = es ++ [frozenInfoLine fmt trackers (lastSome t0 ps)]) := by
  refine ⟨rfl, frozen_rich_eq_slots fmt t, rfl, frozen_info_eq_slots fmt trackers t,
    ⟨(activeTicks fmt qs ts0).1, ?_⟩, ⟨(infoTicks fmt trackers ps t0).1, ?_⟩⟩
  · unfold activeLive
    rw [(activeTicks_spec fmt qs ts0).2]
  · unfold infoLive
    rw [infoTicks_spec fmt trackers ps t0]

/-- C7 counterexample: a torrent whose ETA renders as "2h".  The claim
says the frozen render keeps every non-rate field, but the frozen info
text differs from the rate-only-dashed template that keeps the ETA: the
code also replaces the ETA with "-". -/
theorem frozen_info_eta_replaced :
    frozenInfoLine fmt1 [] t1 ≠
      infoSlots fmt1 [] t1 (lit "- B") (lit "- B") (fmt1.eta t1) := by decide

/-- C8: the substitution table turns every reserved markdown character
into a harmless one, so a substituted name can contain no reserved
character at all; the rich template embeds the substituted name while
the plain template embeds the name unchanged. -/
theorem md_escape_rich_vs_plain (s : Str) (fmt : Fmt) (t : Torrent) :
    (∀ c ∈ mdReplace s,
      c ≠ '*' ∧ c ≠ '[' ∧ c ≠ ']' ∧ c ≠ '_' ∧ c ≠ Char.ofNat 96) ∧
    (∃ u v, richLine fmt t = u ++ (mdReplace t.name ++ v)) ∧
    (∃ u v, listLine t = u ++ (t.name ++ v)) := by
  refine ⟨?_, ?_, ?_⟩
  · intro c hc
    obtain ⟨a, -, rfl⟩ := List.mem_map.mp hc
    unfold mdChar
    split_ifs with h1 h2 h3 h4 h5
    · decide
    · decide
    · decide
    · decide
    · decide
    · exact ⟨h1, h2, h3, h4, h5⟩
  · refine ⟨lit "`<" ++ natStr t.id ++ lit ">` *",
      lit "*\n" ++ fmt.status t ++ lit " *" ++ fmt.bytes t.haveBytes ++
      lit "* of *" ++ fmt.bytes t.sizeWhenDone ++ lit "* (*" ++ fmt.percent t ++
      lit "%*) ↓ *" ++ fmt.bytes t.rateDownload ++ lit "*  ↑ *" ++
      fmt.bytes t.rateUpload ++ lit "* R: *" ++ fmt.ratio t ++ lit "*\n\n", ?_⟩
    simp only [richLine, List.append_assoc]
  · refine ⟨lit "<" ++ natStr t.id ++ lit "> ", lit "\n", ?_⟩
    simp only [listLine, List.append_assoc]

theorem md_escape_rich_vs_plain_witness :
    mdChar '*' ≠ '*' ∧ mdChar '*' ≠ Char.ofNat 96 :=
  have h := (md_escape_rich_vs_plain ['*'] fmt0 t1).1 (mdChar '*') (by decide)
  ⟨h.1, h.2.2.2.2⟩

/-- C9: the block renderings are pure functions of the fetched
collection (and of the formatting collaborators): rendering the same
filtered and sorted collection twice with no intervening state change
yields identical text. -/
theorem render_deterministic (fmt : Fmt) (ts1 ts2 : List Torrent)
    (h : ts1 = ts2) :
    activeBlock fmt ts1 = activeBlock fmt ts2 ∧ downsBlock ts1 = downsBlock ts2 := by
  rw [h]
  exact ⟨rfl, rfl⟩

theorem render_deterministic_witness :
    activeBlock fmt0 [t1] = activeBlock fmt0 [t1] :=
  (render_deterministic fmt0 [t1] [t1] rfl).1

/-- C10: after the clamp, the slice bound always lies between 0 and the
collection length, so the slicing of `head`, `tail` and `latest` never
indexes out of bounds; and whenever the parsed argument is nonpositive
or exceeds the collection length the bound becomes the length and the
entire collection is rendered. -/
theorem slice_clamp_safe (n : Int) (ts : List Torrent)
    (sorter : List Torrent → List Torrent)
    (hs : ∀ l, (sorter l).length = l.length) :
    (headSlice n ts).isSome ∧ (tailSlice n ts).isSome ∧
    (latestSlice sorter n ts).isSome ∧
    ((n ≤ 0 ∨ (ts.length : Int) < n) →
      headSlice n ts = some ts ∧ tailSlice n ts = some ts ∧
      latestSlice sorter n ts = some (sorter ts)) := by
  have hb0 : 0 ≤ boundN n ts.length := by
    unfold boundN; split_ifs <;> omega
  have hb1 : boundN n ts.length ≤ (ts.length : Int) := by
    unfold boundN; split_ifs <;> omega
  refine ⟨?_, ?_, ?_, ?_⟩
  · unfold headSlice goSliceTo
    rw [if_pos ⟨hb0, hb1⟩]
    rfl
  · unfold tailSlice goSliceFrom
    rw [if_pos (by constructor <;> omega)]
    rfl
  · unfold latestSlice goSliceTo
    rw [if_pos ⟨hb0, by rw [hs ts]; exact hb1⟩]
    rfl
  · intro hcl
    have hbl : boundN n ts.length = (ts.length : Int) := by
      unfold boundN; rw [if_pos hcl]
    have htn : (ts.length : Int).toNat = ts.length := Int.toNat_natCast ts.length
    refine ⟨?_, ?_, ?_⟩
    · unfold headSlice goSliceTo
      rw [hbl, if_pos (by constructor <;> omega), htn, List.take_length]
    · unfold tailSlice goSliceFrom
      rw [hbl]
      rw [show (ts.length : Int) - (ts.length : Int) = 0 from by omega]
      rw [if_pos (by constructor <;> omega)]
      simp
    · unfold latestSlice goSliceTo
      rw [hbl, if_pos ⟨by omega, by rw [hs ts]⟩, htn]
      rw [show ts.length = (sorter ts).length from (hs ts).symm, List.take_length]

theorem slice_clamp_safe_witness :
    headSlice (-3) [t1] = some [t1] ∧ tailSlice (-3) [t1] = some [t1] :=
  have h := ((slice_clamp_safe (-3) [t1] (fun l => l) (fun _ => rfl)).2.2.2
    (Or.inl (by norm_num)))
  ⟨h.1, h.2.1⟩
